import Mathlib

/-!
Verification development for the translation-quality pipeline repository.

Shallow embedding of:
  * `config.py`            — module constants
  * `agent_wrapper.py`     — `AgentWrapper.__init__`, `AgentWrapper.call_with_retry`
  * `pipeline.py`          — `TranslationQualityPipeline.run`, `_process_sentences`,
                             `_save_intermediate_results`, `_save_partial_results`,
                             `_save_results`, `_call_agent_with_retry`
  * `sentence_generator.py`— `SentenceGenerator.generate_sentences`,
                             `_generate_additional_sentences`, `_generate_template_sentences`

External collaborators (LLM agents, the embedding model, the filesystem, the
random number generator) are modelled as oracle parameters.  Wall-clock times,
timestamps and the floating-point statistics block of the saved JSON files are
out of scope of the verified claims and are omitted from the file records.
-/

namespace Config

/-- Constant `config.NUM_SENTENCES = 5`. -/
def NUM_SENTENCES : Nat := 5

/-- Constant `config.MIN_WORDS = 10`. -/
def MIN_WORDS : Nat := 10

/-- Constant `config.MAX_WORDS = 20`. -/
def MAX_WORDS : Nat := 20

/-- Constant `config.AGENT_TIMEOUT = 60` (seconds). -/
def AGENT_TIMEOUT : Int := 60

/-- Constant `config.MAX_RETRIES = 3`. -/
def MAX_RETRIES : Nat := 3

/-- Constant `config.RETRY_DELAY = 2` (seconds between retries). -/
def RETRY_DELAY : Int := 2

/-- Constant `config.SAVE_INTERMEDIATE = True`. -/
def SAVE_INTERMEDIATE : Bool := true

end Config

/-- Outcome of one attempt of the wrapped agent function inside
`AgentWrapper.call_with_retry`: the call returns a value, raises
`concurrent.futures.TimeoutError`, or raises some other exception with
message `str(e)`. -/
inductive AttemptOutcome where
  | success (value : String)
  | timeout
  | failure (msg : String)
deriving DecidableEq

/-- Result of `AgentWrapper.call_with_retry`.  Exceptions are embedded as
constructors: `timeoutError` is a raised `AgentTimeoutError`, `maxRetriesError`
a raised `AgentMaxRetriesError`, and `fallbackReturn` the
`return (False, last_error)` after the attempt loop. `ok v` is
`return (True, result)`. -/
inductive CallResult where
  | ok (value : String)
  | timeoutError (msg : String)
  | maxRetriesError (msg : String)
  | fallbackReturn (lastError : Option String)
deriving DecidableEq

/-- The `last_error` string set in the `except FuturesTimeoutError` branch:
`f"Timeout ({self.timeout}s) on attempt {attempt}/{self.max_retries}"`. -/
def timeoutAttemptMsg (timeout : Int) (attempt max_retries : Nat) : String :=
  "Timeout ( " ++ toString timeout ++ "s) on attempt " ++ toString attempt ++ "/"
    ++ toString max_retries

/-- The `last_error` string set in the generic `except Exception` branch:
`f"Error on attempt {attempt}/{self.max_retries}: {str(e)}"`. -/
def errorAttemptMsg (attempt max_retries : Nat) (e : String) : String :=
  "Error on attempt " ++ toString attempt ++ "/" ++ toString max_retries ++ ": " ++ e

/-- Message of the raised `AgentTimeoutError`:
`f"Agent timeout after {self.max_retries} attempts ({self.timeout}s each)"`. -/
def timeoutExhaustedMsg (max_retries : Nat) (timeout : Int) : String :=
  "Agent timeout after " ++ toString max_retries ++ " attempts ( " ++ toString timeout
    ++ "s each)"

/-- Message of the raised `AgentMaxRetriesError`:
`f"Agent failed after {self.max_retries} attempts. Last error: {str(e)}"`. -/
def maxRetriesMsg (max_retries : Nat) (e : String) : String :=
  "Agent failed after " ++ toString max_retries ++ " attempts. Last error: " ++ e

/-- The attempt loop of `AgentWrapper.call_with_retry`
(`for attempt in range(1, self.max_retries + 1)`), desugared into structural
recursion on the number of remaining loop iterations.  `beh attempt` is the
oracle giving the outcome of the wrapped call on that attempt.  The second
component of the result counts the executed `time.sleep(self.retry_delay)`
calls. -/
def callWithRetryLoop (max_retries : Nat) (timeout : Int) (beh : Nat → AttemptOutcome) :
    Nat → Nat → Option String → Nat → CallResult × Nat
  | _, 0, lastError, sleeps => (.fallbackReturn lastError, sleeps)
  | attempt, remaining + 1, _, sleeps =>
    match beh attempt with
    | .success v => (.ok v, sleeps)
    | .timeout =>
      if attempt = max_retries then
        (.timeoutError (timeoutExhaustedMsg max_retries timeout), sleeps)
      else
        callWithRetryLoop max_retries timeout beh (attempt + 1) remaining
          (some (timeoutAttemptMsg timeout attempt max_retries))
          (sleeps + if attempt < max_retries then 1 else 0)
    | .failure e =>
      if attempt = max_retries then
        (.maxRetriesError (maxRetriesMsg max_retries e), sleeps)
      else
        callWithRetryLoop max_retries timeout beh (attempt + 1) remaining
          (some (errorAttemptMsg attempt max_retries e))
          (sleeps + if attempt < max_retries then 1 else 0)

/-- Model of `AgentWrapper.call_with_retry`: attempts are numbered `1..max_retries`,
`last_error` starts as `None` and no sleep has happened yet. -/
def call_with_retry (max_retries : Nat) (timeout : Int) (beh : Nat → AttemptOutcome) :
    CallResult × Nat :=
  callWithRetryLoop max_retries timeout beh 1 max_retries none 0

/-- The terminal result `call_with_retry` produces when every attempt fails:
classification follows the outcome of the final attempt `beh max_retries`. -/
def exhaustClassify (max_retries : Nat) (timeout : Int) (beh : Nat → AttemptOutcome) :
    CallResult :=
  match beh max_retries with
  | .timeout => .timeoutError (timeoutExhaustedMsg max_retries timeout)
  | .failure e => .maxRetriesError (maxRetriesMsg max_retries e)
  | .success v => .ok v

def isSuccessB : AttemptOutcome → Bool
  | .success _ => true
  | _ => false

def isFallbackB : CallResult → Bool
  | .fallbackReturn _ => true
  | _ => false

/-- The `AgentWrapper` instance fields set by `AgentWrapper.__init__`. -/
structure AgentWrapperCfg where
  max_retries : Int
  timeout : Int
  retry_delay : Int
deriving DecidableEq

/-- Python `x or default` for an optional integer argument: `None` and `0` are
falsy and are replaced by the default, any other integer is kept. -/
def pyOrInt (arg : Option Int) (dflt : Int) : Int :=
  match arg with
  | none => dflt
  | some v => if v = 0 then dflt else v

/-- Model of `AgentWrapper.__init__(max_retries=None, timeout=None, retry_delay=None)`:
`self.max_retries = max_retries or config.MAX_RETRIES` and likewise for the
other two fields. -/
def AgentWrapper_init (max_retries timeout retry_delay : Option Int) : AgentWrapperCfg :=
  { max_retries := pyOrInt max_retries (Config.MAX_RETRIES : Int)
    timeout := pyOrInt timeout Config.AGENT_TIMEOUT
    retry_delay := pyOrInt retry_delay Config.RETRY_DELAY }

/-- Exceptions that can propagate out of one loop iteration of
`TranslationQualityPipeline._process_sentences`: the two typed agent errors
re-raised by `_call_agent_with_retry`, or a generic `Exception` (such as the
`raise Exception(result)` fallback, or an I/O error from
`_save_intermediate_results`). -/
inductive PipeError where
  | agentTimeout (msg : String)
  | agentMaxRetries (msg : String)
  | genericExc (msg : String)
deriving DecidableEq

/-- One entry of `self.results` built in `_process_sentences` (the
`processing_time` and `timestamp` fields are wall-clock data, out of scope). -/
structure ItemResult where
  index : Nat
  original_sentence : String
  russian_translation : String
  hebrew_translation : String
  final_sentence : String
  cosine_distance : ℚ
deriving DecidableEq

/-- Number of translation stages in `TranslationPipeline`
(`agent1`, `agent2`, `agent3`). -/
def CHAIN_LENGTH : Nat := 3

/-- The per-stage outputs stored in an `ItemResult`, in chain order
(`russian_translation`, `hebrew_translation`, `final_sentence`). -/
def ItemResult.stage_outputs (r : ItemResult) : List String :=
  [r.russian_translation, r.hebrew_translation, r.final_sentence]

/-- A JSON file written by the pipeline.  `intermediate` is
`_save_intermediate_results` (fields `processed_count`, `sentences`),
`partialResults` is `_save_partial_results` (metadata `status`,
`sentences_processed`, `sentences_expected`, plus `sentences`), `finalResults`
is `_save_results` (metadata `total_sentences`, plus `sentences`).  Timestamps,
config snapshots and the floating-point statistics block are omitted. -/
inductive SavedFile where
  | intermediate (processed_count : Nat) (sentences : List ItemResult)
  | partialResults (status : String) (sentences_processed sentences_expected : Nat)
      (sentences : List ItemResult)
  | finalResults (total_sentences : Nat) (sentences : List ItemResult)
deriving DecidableEq

/-- The `processed_count` of an intermediate checkpoint file. -/
def interIndex : SavedFile → Option Nat
  | .intermediate i _ => some i
  | _ => none

/-- The data of a partial-results file. -/
def partialData : SavedFile → Option (String × Nat × Nat × List ItemResult)
  | .partialResults st p e s => some (st, p, e, s)
  | _ => none

def isIntermediateB : SavedFile → Bool
  | .intermediate _ _ => true
  | _ => false

def isFinalB : SavedFile → Bool
  | .finalResults _ _ => true
  | _ => false

/-- Oracle for the external agent calls: `beh idx stage text attempt` is the
outcome of attempt `attempt` of translation stage `stage` (1, 2 or 3) of
sentence number `idx` on input `text`. -/
abbrev AgentBehavior := Nat → Nat → String → Nat → AttemptOutcome

def isAgentErrP : PipeError → Bool
  | .agentTimeout _ => true
  | .agentMaxRetries _ => true
  | .genericExc _ => false

/-- Model of `TranslationQualityPipeline._call_agent_with_retry` for one stage call:
runs `self.agent_wrapper.call_with_retry` (the pipeline constructs
`AgentWrapper()` with the `config.py` defaults), returns the translation on
success, and otherwise raises: the two typed errors propagate, and a
`(False, last_error)` return becomes `raise Exception(result)`. -/
def stageCall (beh : AgentBehavior) (idx stage : Nat) (text : String) :
    Except PipeError String :=
  match (call_with_retry Config.MAX_RETRIES Config.AGENT_TIMEOUT (beh idx stage text)).1 with
  | .ok v => .ok v
  | .timeoutError m => .error (.agentTimeout m)
  | .maxRetriesError m => .error (.agentMaxRetries m)
  | .fallbackReturn le => .error (.genericExc (le.getD "None"))

/-- The three chained stage calls of one `_process_sentences` loop iteration
(EN → RU, RU → HE, HE → EN), threading each output into the next input, plus
the list of `(sentence index, stage)` invocations actually made. -/
def runChainItem (beh : AgentBehavior) (idx : Nat) (s : String) :
    Except PipeError (String × String × String) × List (Nat × Nat) :=
  match stageCall beh idx 1 s with
  | .error e => (.error e, [(idx, 1)])
  | .ok ru =>
    match stageCall beh idx 2 ru with
    | .error e => (.error e, [(idx, 1), (idx, 2)])
    | .ok he =>
      match stageCall beh idx 3 he with
      | .error e => (.error e, [(idx, 1), (idx, 2), (idx, 3)])
      | .ok fin => (.ok (ru, he, fin), [(idx, 1), (idx, 2), (idx, 3)])

def isOkEB : Except PipeError (String × String × String) → Bool
  | .ok _ => true
  | .error _ => false

def isAgentErrE : Except PipeError (String × String × String) → Bool
  | .error e => isAgentErrP e
  | .ok _ => false

/-- Mutable state of the orchestrator while `_process_sentences` runs:
`self.results`, the set of files written so far, the log of stage invocations,
and the exception (if any) that ended the loop. -/
structure ProcState where
  results : List ItemResult
  files : List SavedFile
  calls : List (Nat × Nat)
  err : Option PipeError
deriving DecidableEq

/-- Message standing in for the OS error text of a failed
`_save_intermediate_results` write (environment-specific in the source). -/
def intermediateSaveFailMsg : String := "intermediate results write failed"

/-- Message standing in for the OS error text of a failed `_save_results`
write (environment-specific in the source). -/
def finalSaveFailMsg : String := "final results write failed"

/-- Message standing in for the OS error text of a failed
`_save_partial_results` write (environment-specific in the source). -/
def partialSaveFailMsg : String := "partial results write failed"

/-- The loop of `TranslationQualityPipeline._process_sentences` over
`enumerate(sentences, 1)`.  `scorer` is the external
`SimilarityCalculator.calculate_cosine_distance` collaborator, `interOk i`
tells whether the filesystem write of `_save_intermediate_results(i)`
succeeds.  On each chain failure the typed agent error is re-raised by the
`except` clause; a failed intermediate write raises a generic exception that
the clause does not catch.  After every successful item the result is
appended, and if `config.SAVE_INTERMEDIATE and idx % 10 == 0` an intermediate
checkpoint of all results so far is written. -/
def processLoop (beh : AgentBehavior) (scorer : String → String → ℚ)
    (interOk : Nat → Bool) : List String → Nat → ProcState → ProcState
  | [], _, st => st
  | s :: rest, idx, st =>
    match runChainItem beh idx s with
    | (.error e, c) => { st with calls := st.calls ++ c, err := some e }
    | (.ok (ru, he, fin), c) =>
      let r : ItemResult :=
        { index := idx, original_sentence := s, russian_translation := ru,
          hebrew_translation := he, final_sentence := fin,
          cosine_distance := scorer s fin }
      let st1 : ProcState :=
        { st with results := st.results ++ [r], calls := st.calls ++ c }
      if Config.SAVE_INTERMEDIATE && idx % 10 == 0 then
        if interOk idx then
          processLoop beh scorer interOk rest (idx + 1)
            { st1 with files := st1.files ++ [.intermediate idx st1.results] }
        else { st1 with err := some (.genericExc intermediateSaveFailMsg) }
      else processLoop beh scorer interOk rest (idx + 1) st1

/-- How `TranslationQualityPipeline.run` terminates: normal completion,
an abort on `AgentTimeoutError`/`AgentMaxRetriesError` (re-raised after the
partial save), or an abort on any other exception (re-raised by the generic
handler without a partial save). -/
inductive RunCompletion where
  | completed
  | abortedAgent (msg : String)
  | abortedOther (msg : String)
deriving DecidableEq

def isAbortedAgentB : RunCompletion → Bool
  | .abortedAgent _ => true
  | _ => false

/-- Final observable state of one `TranslationQualityPipeline.run`. -/
structure RunResult where
  results : List ItemResult
  files : List SavedFile
  calls : List (Nat × Nat)
  outcome : RunCompletion
deriving DecidableEq

/-- The `status` metadata value written by `_save_partial_results`. -/
def partialStatus : String := "PARTIAL - Pipeline stopped early"

/-- Model of `TranslationQualityPipeline.run` from `_process_sentences` onward
(sentence generation is the external generator collaborator; `sentences` is
its output and `num_sentences` the `config.NUM_SENTENCES` value recorded as
`sentences_expected`).  On success, `_analyze_and_visualize` computes the
statistics and `_save_results` writes the final file (`finalOk` tells whether
that write succeeds) — unless `self.results` is empty, in which case it
returns early without writing.  On an agent error, `run` saves partial results
(only if `self.results` is non-empty; `partialOk` tells whether that write
succeeds) and re-raises; any other exception is re-raised without a partial
save. -/
def pipeline_run (beh : AgentBehavior) (scorer : String → String → ℚ)
    (interOk : Nat → Bool) (finalOk partialOk : Bool) (num_sentences : Nat)
    (sentences : List String) : RunResult :=
  let st := processLoop beh scorer interOk sentences 1 ⟨[], [], [], none⟩
  match st.err with
  | none =>
    if st.results.isEmpty then ⟨st.results, st.files, st.calls, .completed⟩
    else if finalOk then
      ⟨st.results, st.files ++ [.finalResults st.results.length st.results], st.calls,
        .completed⟩
    else ⟨st.results, st.files, st.calls, .abortedOther finalSaveFailMsg⟩
  | some (.genericExc m) => ⟨st.results, st.files, st.calls, .abortedOther m⟩
  | some (.agentTimeout m) =>
    if st.results.isEmpty then ⟨st.results, st.files, st.calls, .abortedAgent m⟩
    else if partialOk then
      ⟨st.results,
        st.files ++ [.partialResults partialStatus st.results.length num_sentences st.results],
        st.calls, .abortedAgent m⟩
    else ⟨st.results, st.files, st.calls, .abortedOther partialSaveFailMsg⟩
  | some (.agentMaxRetries m) =>
    if st.results.isEmpty then ⟨st.results, st.files, st.calls, .abortedAgent m⟩
    else if partialOk then
      ⟨st.results,
        st.files ++ [.partialResults partialStatus st.results.length num_sentences st.results],
        st.calls, .abortedAgent m⟩
    else ⟨st.results, st.files, st.calls, .abortedOther partialSaveFailMsg⟩

/-- Python `str.split()` with no argument, over the character list: split on
runs of whitespace, discarding empty words.  `cur` is the (reversed) word
being accumulated. -/
def pyWordsAux (cur : List Char) : List Char → List (List Char)
  | [] => if cur.isEmpty then [] else [cur.reverse]
  | c :: rest =>
    if c.isWhitespace then
      if cur.isEmpty then pyWordsAux [] rest
      else cur.reverse :: pyWordsAux [] rest
    else pyWordsAux (c :: cur) rest

/-- Python `len(sentence.split())` — the word count used throughout
`sentence_generator.py`. -/
def word_count (s : String) : Nat :=
  (pyWordsAux [] s.data).length

/-- Leftmost, non-overlapping replacement of every occurrence of `pat` by
`rep`, as Python `str.replace` does for a non-empty pattern, written with a
fuel argument (one unit per consumed input character) so that it is structural
recursion.  (The source only replaces non-empty placeholder patterns; for an
empty `pat` this returns the input unchanged.) -/
def replaceCharsFuel (pat rep : List Char) : Nat → List Char → List Char
  | 0, cs => cs
  | _ + 1, [] => []
  | fuel + 1, c :: rest =>
    if pat ≠ [] ∧ pat.isPrefixOf (c :: rest) then
      rep ++ replaceCharsFuel pat rep fuel ((c :: rest).drop pat.length)
    else
      c :: replaceCharsFuel pat rep fuel rest

/-- Python `s.replace(pat, rep)` (the fuel `s.length` suffices because every
step consumes at least one input character). -/
def pyReplace (s pat rep : String) : String :=
  ⟨replaceCharsFuel pat.data rep.data s.data.length s.data⟩

/-- Python `pat in s` (substring containment). -/
def containsChars (pat : List Char) : List Char → Bool
  | [] => pat.isEmpty
  | c :: rest => pat.isPrefixOf (c :: rest) || containsChars pat rest

def pyContains (s pat : String) : Bool :=
  containsChars pat.data s.data

/-- Python `str.strip()`: drop leading and trailing whitespace. -/
def pyStrip (s : String) : String :=
  ⟨((s.data.dropWhile Char.isWhitespace).reverse.dropWhile Char.isWhitespace).reverse⟩

/-- Python `s.split(sep)` for a single separator character, keeping empty
pieces (used for `content.split('\n')`). -/
def splitOnChar (sep : Char) : List Char → List (List Char)
  | [] => [[]]
  | c :: rest =>
    if c = sep then [] :: splitOnChar sep rest
    else
      match splitOnChar sep rest with
      | [] => [[c]]
      | w :: ws => (c :: w) :: ws

def pySplitLines (s : String) : List String :=
  (splitOnChar (Char.ofNat 10) s.data).map (fun cs => ⟨cs⟩)

/-- Python `line.split('.', 1)[1]`: everything after the first occurrence of
`sep`.  The source indexes `[1]` only on lines guaranteed to contain a dot by
the `startswith` guard; on a line without `sep` this returns the empty
string. -/
def afterFirstChar (sep : Char) : List Char → List Char
  | [] => []
  | c :: rest => if c = sep then rest else afterFirstChar sep rest

def pyAfterFirstDot (s : String) : String :=
  ⟨afterFirstChar (Char.ofNat 46) s.data⟩

/-- Python `s.startswith(pre)`. -/
def pyStartsWith (s pre : String) : Bool :=
  pre.data.isPrefixOf s.data

/-- The `templates` list of
`SentenceGenerator._generate_template_sentences` (braces written as `\x7b`,
`\x7d`). -/
def templates : List String :=
  [ "The \x7badj\x7d \x7bnoun\x7d \x7bverb\x7d across the \x7bplace\x7d while the \x7bweather\x7d \x7bverb2\x7d.",
   "Scientists have discovered that \x7bnoun\x7d can \x7bverb\x7d in unexpected ways when exposed to \x7bcondition\x7d.",
   "Every morning, the \x7bprofession\x7d would \x7bverb\x7d before heading to the \x7bplace\x7d to start work.",
   "In the distant \x7bplace\x7d, ancient \x7bnoun\x7d still \x7bverb\x7d beneath the \x7badj\x7d \x7bnoun2\x7d.",
   "Technology has revolutionized how we \x7bverb\x7d and interact with \x7bnoun\x7d in modern society.",
   "The \x7badj\x7d landscape stretched endlessly, with \x7bnoun\x7d visible in every direction we looked.",
   "Children often \x7bverb\x7d when they encounter \x7bnoun\x7d for the first time in their lives.",
   "Historical records suggest that \x7bprofession\x7d used to \x7bverb\x7d differently than they do today.",
   "The \x7bweather\x7d conditions made it difficult to \x7bverb\x7d safely through the \x7bplace\x7d yesterday.",
   "Researchers believe that understanding \x7bnoun\x7d could help us \x7bverb\x7d more effectively in the future."]

/-- The `words` dict of `_generate_template_sentences`, in Python dict
insertion order. -/
def wordLists : List (String × List String) :=
  [( "adj", [ "beautiful", "ancient", "modern", "mysterious", "vibrant", "quiet", "massive", "tiny"]),
   ( "noun", [ "mountain", "river", "city", "technology", "culture", "tradition", "discovery", "innovation"]),
   ( "verb", [ "flows", "develops", "transforms", "appears", "grows", "changes", "evolves", "operates"]),
   ( "verb2", [ "continues", "persists", "remains", "develops"]),
   ( "place", [ "valley", "marketplace", "forest", "ocean", "countryside", "metropolis"]),
   ( "weather", [ "sun", "wind", "rain", "storm"]),
   ( "condition", [ "sunlight", "pressure", "temperature", "darkness"]),
   ( "profession", [ "teacher", "doctor", "engineer", "artist", "scientist"]),
   ( "noun2", [ "horizon", "surface", "canopy", "structure"])]

/-- The inner loop of `_generate_template_sentences`: for each key in the
`words` dict, if `"{key}"` occurs in the sentence, replace every occurrence by
the chosen word.  `pick key` stands for `random.choice(values)`, modelled as
an oracle index reduced modulo the list length. -/
def instantiateTemplate (pick : String → Nat) (tmpl : String) : String :=
  wordLists.foldl
    (fun sentence kv =>
      let placeholder := "\x7b" ++ kv.1 ++ "\x7d"
      if pyContains sentence placeholder then
        pyReplace sentence placeholder (kv.2.getD (pick kv.1 % kv.2.length) "")
      else sentence)
    tmpl

/-- Model of `SentenceGenerator._generate_template_sentences(count, min_words,
max_words)`: `count` sentences, each from a template chosen by the
`tmplPick`/`wordPick` randomness oracles.  The `min_words`/`max_words`
arguments are accepted but never used by the source. -/
def generate_template_sentences (tmplPick : Nat → Nat) (wordPick : Nat → String → Nat)
    (count min_words max_words : Nat) : List String :=
  (List.range count).map
    (fun i => instantiateTemplate (wordPick i)
      (templates.getD (tmplPick i % templates.length) ""))

/-- The parsing loop of `generate_sentences` over `content.split('\n')`:
strip each line, keep it when it is non-empty and starts with `"{i}."` for
some `i` in `1..num_sentences`, cut off the number prefix, strip again, and
append only when the word count lies within the bounds. -/
def parseNumbered (content : String) (num_sentences min_words max_words : Nat) :
    List String :=
  (pySplitLines content).foldl
    (fun acc rawLine =>
      let line := pyStrip rawLine
      if !line.isEmpty
          && (List.range' 1 num_sentences).any
              (fun i => pyStartsWith line (toString i ++ ".")) then
        let sentence := pyStrip (pyAfterFirstDot line)
        let wc := word_count sentence
        if decide (min_words ≤ wc) && decide (wc ≤ max_words) then acc ++ [sentence]
        else acc
      else acc)
    []

/-- Model of `SentenceGenerator._generate_additional_sentences(count, min_words,
max_words)`: `addlContent` is the API response text (`none` models an
exception, on which the source returns `[]`).  Lines are stripped, empty ones
dropped, and only sentences whose word count lies within the bounds are
kept.  The `count` argument only shapes the prompt. -/
def generate_additional_sentences (addlContent : Option String)
    (count min_words max_words : Nat) : List String :=
  match addlContent with
  | none => []
  | some content =>
    (((pySplitLines (pyStrip content)).map pyStrip).filter (fun s => !s.isEmpty)).filter
      (fun s => decide (min_words ≤ word_count s) && decide (word_count s ≤ max_words))

/-- Model of `SentenceGenerator.generate_sentences(num_sentences, min_words,
max_words)`.  `apiContent` is the main API response text; `none` models an
exception anywhere in the `try` block, on which the source falls back to
`_generate_template_sentences`.  Otherwise the numbered list is parsed and
filtered, topped up from `_generate_additional_sentences` when too short, and
truncated to `num_sentences`. -/
def generate_sentences (apiContent addlContent : Option String)
    (tmplPick : Nat → Nat) (wordPick : Nat → String → Nat)
    (num_sentences min_words max_words : Nat) : List String :=
  match apiContent with
  | none => generate_template_sentences tmplPick wordPick num_sentences min_words max_words
  | some raw =>
    let content := pyStrip raw
    let sentences := parseNumbered content num_sentences min_words max_words
    let sentences :=
      if sentences.length < num_sentences then
        sentences ++ generate_additional_sentences addlContent
          (num_sentences - sentences.length) min_words max_words
      else sentences
    sentences.take num_sentences

/-- Concrete agent oracle: every attempt of every stage call succeeds. -/
def successBeh : AgentBehavior := fun _ _ _ _ => .success "t"

/-- Concrete agent oracle: every attempt of every stage call of sentence `k`
raises a (non-timeout) error, all other calls succeed. -/
def failAt (k : Nat) : AgentBehavior :=
  fun i _ _ _ => if i = k then .failure "boom" else .success "t"

/-- Concrete scorer oracle returning distance 0. -/
def zeroScorer : String → String → ℚ := fun _ _ => 0

/-- Filesystem oracle: every intermediate checkpoint write succeeds. -/
def allOkSave : Nat → Bool := fun _ => true

/-- Filesystem oracle: the intermediate checkpoint write after item `c` fails,
all others succeed. -/
def failSaveAt (c : Nat) : Nat → Bool := fun i => i != c

/-- A concrete five-sentence input batch (`config.NUM_SENTENCES = 5`). -/
def fiveSentences : List String := [ "s1", "s2", "s3", "s4", "s5"]

/-- A concrete twelve-sentence input batch (long enough to cross the
hard-coded checkpoint index 10). -/
def twelveSentences : List String := List.replicate 12 "s"

theorem loop_exhaust (N : Nat) (t : Int) (beh : Nat → AttemptOutcome) :
    ∀ remaining attempt le s, attempt + remaining = N + 1 → 1 ≤ attempt → attempt ≤ N →
      (∀ i, i ≤ N → attempt ≤ i → isSuccessB (beh i) = false) →
      (callWithRetryLoop N t beh attempt remaining le s).1 = exhaustClassify N t beh := by
  intro remaining
  induction remaining with
  | zero => intro attempt le s h1 h2 h3 _; omega
  | succ r ih =>
    intro attempt le s h1 h2 h3 hfail
    cases hbe : beh attempt with
    | success w =>
      have hc := hfail attempt h3 le_rfl
      rw [hbe] at hc
      simp [isSuccessB] at hc
    | timeout =>
      by_cases hEq : attempt = N
      · subst hEq
        simp [callWithRetryLoop, hbe, exhaustClassify]
      · simp only [callWithRetryLoop, hbe]
        rw [if_neg hEq]
        exact ih (attempt + 1) _ _ (by omega) (by omega) (by omega)
          (fun i hi hi2 => hfail i hi (by omega))
    | failure e =>
      by_cases hEq : attempt = N
      · subst hEq
        simp [callWithRetryLoop, hbe, exhaustClassify]
      · simp only [callWithRetryLoop, hbe]
        rw [if_neg hEq]
        exact ih (attempt + 1) _ _ (by omega) (by omega) (by omega)
          (fun i hi hi2 => hfail i hi (by omega))

theorem loop_succeed (N : Nat) (t : Int) (beh : Nat → AttemptOutcome) (v : String) :
    ∀ remaining attempt le s, attempt + remaining = N + 1 → 1 ≤ attempt → attempt ≤ N →
      (∀ i, i < N → attempt ≤ i → isSuccessB (beh i) = false) →
      beh N = .success v →
      callWithRetryLoop N t beh attempt remaining le s = (.ok v, s + (N - attempt)) := by
  intro remaining
  induction remaining with
  | zero => intro attempt le s h1 h2 h3 _ _; omega
  | succ r ih =>
    intro attempt le s h1 h2 h3 hfail hN
    by_cases hEq : attempt = N
    · subst hEq
      simp [callWithRetryLoop, hN]
    · have hlt : attempt < N := lt_of_le_of_ne h3 hEq
      cases hbe : beh attempt with
      | success w =>
        have hc := hfail attempt hlt le_rfl
        rw [hbe] at hc
        simp [isSuccessB] at hc
      | timeout =>
        simp only [callWithRetryLoop, hbe]
        rw [if_neg hEq, if_pos hlt]
        rw [ih (attempt + 1) _ _ (by omega) (by omega) (by omega)
          (fun i hi hi2 => hfail i hi (by omega)) hN]
        have harith : s + 1 + (N - (attempt + 1)) = s + (N - attempt) := by omega
        rw [harith]
      | failure e =>
        simp only [callWithRetryLoop, hbe]
        rw [if_neg hEq, if_pos hlt]
        rw [ih (attempt + 1) _ _ (by omega) (by omega) (by omega)
          (fun i hi hi2 => hfail i hi (by omega)) hN]
        have harith : s + 1 + (N - (attempt + 1)) = s + (N - attempt) := by omega
        rw [harith]

theorem loop_no_fallback (N : Nat) (t : Int) (beh : Nat → AttemptOutcome) :
    ∀ remaining attempt le s, attempt + remaining = N + 1 → attempt ≤ N →
      isFallbackB (callWithRetryLoop N t beh attempt remaining le s).1 = false := by
  intro remaining
  induction remaining with
  | zero => intro attempt le s h1 h2; omega
  | succ r ih =>
    intro attempt le s h1 h2
    cases hbe : beh attempt with
    | success w => simp [callWithRetryLoop, hbe, isFallbackB]
    | timeout =>
      by_cases hEq : attempt = N
      · subst hEq
        simp [callWithRetryLoop, hbe, isFallbackB]
      · simp only [callWithRetryLoop, hbe]
        rw [if_neg hEq]
        exact ih (attempt + 1) _ _ (by omega) (by omega)
    | failure e =>
      by_cases hEq : attempt = N
      · subst hEq
        simp [callWithRetryLoop, hbe, isFallbackB]
      · simp only [callWithRetryLoop, hbe]
        rw [if_neg hEq]
        exact ih (attempt + 1) _ _ (by omega) (by omega)

/-- C2: for every `max_attempts = N ≥ 1`, if every attempt of `call_with_retry`
fails, the call terminates with a retry-exhaustion error whose kind follows the
final attempt's failure kind — `AgentTimeoutError` when attempt `N` timed out,
`AgentMaxRetriesError` when attempt `N` failed with a non-timeout error, even
when earlier attempts failed the other way.  The raised message is the exact
source format string, which carries the total attempt count `N` (and, for the
non-timeout case, the last observed error text `e`). -/
theorem C2_exhaustion_follows_last_attempt (N : Nat) (t : Int)
    (beh : Nat → AttemptOutcome) (hN : 1 ≤ N)
    (hfail : ∀ i, i ≤ N → 1 ≤ i → isSuccessB (beh i) = false) :
    (beh N = .timeout →
      (call_with_retry N t beh).1 = .timeoutError (timeoutExhaustedMsg N t)) ∧
    (∀ e, beh N = .failure e →
      (call_with_retry N t beh).1 = .maxRetriesError (maxRetriesMsg N e)) := by
  have h := loop_exhaust N t beh N 1 none 0 (by omega) le_rfl hN
    (fun i hi hi2 => hfail i hi hi2)
  constructor
  · intro hbe
    simp only [call_with_retry]
    rw [h]
    simp [exhaustClassify, hbe]
  · intro e hbe
    simp only [call_with_retry]
    rw [h]
    simp [exhaustClassify, hbe]

theorem C2_exhaustion_follows_last_attempt_witness :
    (call_with_retry 2 60 (fun i => if i = 2 then .failure "boom" else .timeout)).1
      = .maxRetriesError (maxRetriesMsg 2 "boom") :=
  (C2_exhaustion_follows_last_attempt 2 60 _ (by decide) (by decide)).2 "boom" (by decide)

/-- C3: for every `max_attempts = N ≥ 1`, an operation that fails on attempts
`1..N-1` and succeeds on attempt `N` makes `call_with_retry` return success
with the attempt-`N` value immediately, and `time.sleep(retry_delay)` runs
exactly `N - 1` times — never after the success and never after a final
attempt. -/
theorem C3_success_after_retries (N : Nat) (t : Int) (beh : Nat → AttemptOutcome)
    (v : String) (hN : 1 ≤ N)
    (hfail : ∀ i, i < N → 1 ≤ i → isSuccessB (beh i) = false)
    (hsucc : beh N = .success v) :
    call_with_retry N t beh = (.ok v, N - 1) := by
  have h := loop_succeed N t beh v N 1 none 0 (by omega) le_rfl hN
    (fun i hi hi2 => hfail i hi hi2) hsucc
  simpa [call_with_retry] using h

theorem C3_success_after_retries_witness :
    call_with_retry 3 60 (fun i => if i = 3 then .success "ok" else .failure "e")
      = (.ok "ok", 2) :=
  C3_success_after_retries 3 60 _ "ok" (by decide) (by decide) (by decide)

/-- C9: for every `max_retries = N ≥ 1`, `call_with_retry` either returns
`(True, value)` or raises `AgentTimeoutError` / `AgentMaxRetriesError`; the
`return (False, last_error)` after the attempt loop is never reached, so no
caller ever observes a `(False, _)` result from it. -/
theorem C9_fallback_unreachable (N : Nat) (t : Int) (beh : Nat → AttemptOutcome)
    (hN : 1 ≤ N) :
    isFallbackB (call_with_retry N t beh).1 = false := by
  have h := loop_no_fallback N t beh N 1 none 0 (by omega) hN
  simpa [call_with_retry] using h

theorem C9_fallback_unreachable_witness :
    isFallbackB (call_with_retry 1 60 (fun _ => .success "v")).1 = false :=
  C9_fallback_unreachable 1 60 _ (by decide)

/-- C10: `AgentWrapper.__init__` replaces any falsy argument with the
`config.py` default: passing `max_retries=0`, `timeout=0` or `retry_delay=0`
silently yields `config.MAX_RETRIES`, `config.AGENT_TIMEOUT` and
`config.RETRY_DELAY`, and no choice of constructor arguments can make the
stored `retry_delay` (or `max_retries`) equal to zero. -/
theorem C10_falsy_args_replaced_by_defaults :
    AgentWrapper_init (some 0) (some 0) (some 0)
        = ⟨(Config.MAX_RETRIES : Int), Config.AGENT_TIMEOUT, Config.RETRY_DELAY⟩ ∧
    ∀ a b c : Option Int,
      (((AgentWrapper_init a b c).retry_delay == 0) = false) ∧
      (((AgentWrapper_init a b c).max_retries == 0) = false) := by
  constructor
  · rfl
  · intro a b c
    constructor
    · cases c with
      | none =>
        simp only [AgentWrapper_init, pyOrInt]
        decide
      | some v =>
        simp only [AgentWrapper_init, pyOrInt]
        by_cases hv : v = 0
        · simp [hv, Config.RETRY_DELAY]
        · simp [hv]
    · cases a with
      | none =>
        simp only [AgentWrapper_init, pyOrInt]
        decide
      | some v =>
        simp only [AgentWrapper_init, pyOrInt]
        by_cases hv : v = 0
        · simp [hv, Config.MAX_RETRIES]
        · simp [hv]

theorem processLoop_cons_err {beh : AgentBehavior} {scorer : String → String → ℚ}
    {interOk : Nat → Bool} {s : String} {rest : List String} {idx : Nat}
    {st : ProcState} {e : PipeError} {c : List (Nat × Nat)}
    (hch : runChainItem beh idx s = (.error e, c)) :
    processLoop beh scorer interOk (s :: rest) idx st
      = { st with calls := st.calls ++ c, err := some e } := by
  simp [processLoop, hch]

theorem processLoop_cons_ok {beh : AgentBehavior} {scorer : String → String → ℚ}
    {interOk : Nat → Bool} {s : String} {rest : List String} {idx : Nat}
    {st : ProcState} {ru he fin : String} {c : List (Nat × Nat)}
    (hch : runChainItem beh idx s = (.ok (ru, he, fin), c)) :
    processLoop beh scorer interOk (s :: rest) idx st
      = (if idx % 10 == 0 then
          if interOk idx then
            processLoop beh scorer interOk rest (idx + 1)
              { st with
                results := st.results ++ [⟨idx, s, ru, he, fin, scorer s fin⟩]
                files := st.files
                  ++ [.intermediate idx (st.results ++ [⟨idx, s, ru, he, fin, scorer s fin⟩])]
                calls := st.calls ++ c }
          else
            { st with
              results := st.results ++ [⟨idx, s, ru, he, fin, scorer s fin⟩]
              calls := st.calls ++ c
              err := some (.genericExc intermediateSaveFailMsg) }
        else
          processLoop beh scorer interOk rest (idx + 1)
            { st with
              results := st.results ++ [⟨idx, s, ru, he, fin, scorer s fin⟩]
              calls := st.calls ++ c }) := by
  simp [processLoop, hch, Config.SAVE_INTERMEDIATE]

theorem runChainItem_calls (beh : AgentBehavior) (idx : Nat) (s : String) :
    ∀ p ∈ (runChainItem beh idx s).2, p.1 = idx := by
  intro p hp
  cases h1 : stageCall beh idx 1 s with
  | error e =>
    simp only [runChainItem, h1] at hp
    simp at hp
    subst hp; rfl
  | ok ru =>
    cases h2 : stageCall beh idx 2 ru with
    | error e =>
      simp only [runChainItem, h1, h2] at hp
      simp at hp
      rcases hp with rfl | rfl <;> rfl
    | ok he =>
      cases h3 : stageCall beh idx 3 he with
      | error e =>
        simp only [runChainItem, h1, h2, h3] at hp
        simp at hp
        rcases hp with rfl | rfl | rfl <;> rfl
      | ok fin =>
        simp only [runChainItem, h1, h2, h3] at hp
        simp at hp
        rcases hp with rfl | rfl | rfl <;> rfl

theorem pipeline_run_results (beh : AgentBehavior) (scorer : String → String → ℚ)
    (interOk : Nat → Bool) (finalOk partialOk : Bool) (n : Nat)
    (sentences : List String) :
    (pipeline_run beh scorer interOk finalOk partialOk n sentences).results
      = (processLoop beh scorer interOk sentences 1 ⟨[], [], [], none⟩).results := by
  unfold pipeline_run
  cases h : (processLoop beh scorer interOk sentences 1 ⟨[], [], [], none⟩).err with
  | none =>
    simp only [h]
    split <;> try rfl
    split <;> rfl
  | some e =>
    cases e with
    | agentTimeout m =>
      simp only [h]
      split <;> try rfl
      split <;> rfl
    | agentMaxRetries m =>
      simp only [h]
      split <;> try rfl
      split <;> rfl
    | genericExc m => simp only [h]

theorem processLoop_results_spec (beh : AgentBehavior) (scorer : String → String → ℚ)
    (interOk : Nat → Bool) :
    ∀ (sents : List String) (idx : Nat) (st : ProcState),
      ∃ newRes : List ItemResult,
        (processLoop beh scorer interOk sents idx st).results = st.results ++ newRes ∧
        newRes.map ItemResult.index = List.range' idx newRes.length ∧
        ∀ r ∈ newRes,
          r.stage_outputs.length = CHAIN_LENGTH ∧
          r.stage_outputs.getLast? = some r.final_sentence ∧
          r.cosine_distance = scorer r.original_sentence r.final_sentence := by
  intro sents
  induction sents with
  | nil =>
    intro idx st
    exact ⟨[], by simp [processLoop], by simp, by simp⟩
  | cons s rest ih =>
    intro idx st
    rcases hch : runChainItem beh idx s with ⟨exc, c⟩
    cases exc with
    | error e =>
      refine ⟨[], ?_, by simp, by simp⟩
      rw [processLoop_cons_err hch]
      simp
    | ok t =>
      obtain ⟨ru, he, fin⟩ := t
      rw [processLoop_cons_ok hch]
      by_cases hmod : idx % 10 = 0
      · rw [if_pos (by simp [hmod])]
        cases hOk : interOk idx with
        | true =>
          rw [if_pos rfl]
          obtain ⟨newRes, h1, h2, h3⟩ := ih (idx + 1)
            { st with
              results := st.results ++ [⟨idx, s, ru, he, fin, scorer s fin⟩]
              files := st.files
                ++ [.intermediate idx (st.results ++ [⟨idx, s, ru, he, fin, scorer s fin⟩])]
              calls := st.calls ++ c }
          refine ⟨⟨idx, s, ru, he, fin, scorer s fin⟩ :: newRes, ?_, ?_, ?_⟩
          · rw [h1]; simp
          · simp only [List.map_cons, h2, List.length_cons, List.range'_succ]
          · intro r hr
            rcases List.mem_cons.mp hr with rfl | hr2
            · exact ⟨rfl, rfl, rfl⟩
            · exact h3 r hr2
        | false =>
          rw [if_neg (by simp [hOk])]
          refine ⟨[⟨idx, s, ru, he, fin, scorer s fin⟩], by simp, ?_, ?_⟩
          · simp [List.range'_one]
          · intro r hr
            rcases List.mem_singleton.mp hr with rfl
            exact ⟨rfl, rfl, rfl⟩
      · rw [if_neg (by simpa using hmod)]
        obtain ⟨newRes, h1, h2, h3⟩ := ih (idx + 1)
          { st with
            results := st.results ++ [⟨idx, s, ru, he, fin, scorer s fin⟩]
            calls := st.calls ++ c }
        refine ⟨⟨idx, s, ru, he, fin, scorer s fin⟩ :: newRes, ?_, ?_, ?_⟩
        · rw [h1]; simp
        · simp only [List.map_cons, h2, List.length_cons, List.range'_succ]
        · intro r hr
          rcases List.mem_cons.mp hr with rfl | hr2
          · exact ⟨rfl, rfl, rfl⟩
          · exact h3 r hr2

/-- C6: throughout one run the orchestrator's result collection is append-only
(every `_process_sentences` step only extends `self.results`), the `index`
values of the collected ItemResults are exactly `1, 2, ..., len` — strictly
increasing and contiguous starting at 1, the i-th appended result carrying
index i —, every ItemResult holds exactly one output per configured stage
(`CHAIN_LENGTH = 3`), and the last stage output (`final_sentence`) is the
value scored against `original_sentence`. -/
theorem C6_result_collection_invariants (beh : AgentBehavior)
    (scorer : String → String → ℚ) (interOk : Nat → Bool) (finalOk partialOk : Bool)
    (num_sentences : Nat) (sentences : List String) :
    ((pipeline_run beh scorer interOk finalOk partialOk num_sentences sentences).results.map
        ItemResult.index
      = List.range' 1
          (pipeline_run beh scorer interOk finalOk partialOk num_sentences
            sentences).results.length) ∧
    (∀ r ∈ (pipeline_run beh scorer interOk finalOk partialOk num_sentences sentences).results,
      r.stage_outputs.length = CHAIN_LENGTH ∧
      r.stage_outputs.getLast? = some r.final_sentence ∧
      r.cosine_distance = scorer r.original_sentence r.final_sentence) ∧
    (∀ (sents : List String) (idx : Nat) (st : ProcState),
      ∃ tail, (processLoop beh scorer interOk sents idx st).results = st.results ++ tail) := by
  obtain ⟨newRes, h1, h2, h3⟩ :=
    processLoop_results_spec beh scorer interOk sentences 1 ⟨[], [], [], none⟩
  have hres := pipeline_run_results beh scorer interOk finalOk partialOk num_sentences sentences
  rw [h1] at hres
  simp only [List.nil_append] at hres
  refine ⟨?_, ?_, ?_⟩
  · rw [hres, h2]
  · rw [hres]; exact h3
  · intro sents idx st
    obtain ⟨tail, ht, _, _⟩ := processLoop_results_spec beh scorer interOk sents idx st
    exact ⟨tail, ht⟩

theorem partialData_nil_of_all_intermediate {fs : List SavedFile}
    (h : fs.all isIntermediateB = true) : fs.filterMap partialData = [] := by
  induction fs with
  | nil => rfl
  | cons f rest ih =>
    rw [List.all_cons, Bool.and_eq_true] at h
    cases f with
    | intermediate i s => simpa [List.filterMap_cons, partialData] using ih h.2
    | partialResults a b c d => simp [isIntermediateB] at h
    | finalResults a b => simp [isIntermediateB] at h

theorem processLoop_fail_spec (beh : AgentBehavior) (scorer : String → String → ℚ)
    (interOk : Nat → Bool) (hinter : ∀ i, interOk i = true) :
    ∀ (sents : List String) (m idx : Nat) (st : ProcState),
      (∀ j, j < m → isOkEB (runChainItem beh (idx + j) (sents.getD j "")).1 = true) →
      isAgentErrE (runChainItem beh (idx + m) (sents.getD m "")).1 = true →
      m < sents.length →
      ∃ newRes newFiles newCalls e,
        processLoop beh scorer interOk sents idx st
          = ⟨st.results ++ newRes, st.files ++ newFiles, st.calls ++ newCalls, some e⟩ ∧
        isAgentErrP e = true ∧
        newRes.length = m ∧
        (∀ p ∈ newCalls, p.1 ≤ idx + m) ∧
        newFiles.all isIntermediateB = true := by
  intro sents
  induction sents with
  | nil => intro m idx st _ _ hm; simp at hm
  | cons s rest ih =>
    intro m idx st hok hfail hm
    cases m with
    | zero =>
      simp only [Nat.add_zero, List.getD_cons_zero] at hfail
      rcases hch : runChainItem beh idx s with ⟨exc, c⟩
      cases exc with
      | ok t => rw [hch] at hfail; simp [isAgentErrE] at hfail
      | error e =>
        rw [hch] at hfail
        refine ⟨[], [], c, e, ?_, hfail, rfl, ?_, rfl⟩
        · rw [processLoop_cons_err hch]
          simp
        · intro p hp
          have := runChainItem_calls beh idx s p (by rw [hch]; exact hp)
          omega
    | succ j =>
      have hok0 := hok 0 (by omega)
      simp only [Nat.add_zero, List.getD_cons_zero] at hok0
      rcases hch : runChainItem beh idx s with ⟨exc, c⟩
      cases exc with
      | error e => rw [hch] at hok0; simp [isOkEB] at hok0
      | ok t =>
        obtain ⟨ru, he, fin⟩ := t
        have hcalls : ∀ p ∈ c, p.1 = idx := by
          intro p hp
          exact runChainItem_calls beh idx s p (by rw [hch]; exact hp)
        have hok' : ∀ j2, j2 < j →
            isOkEB (runChainItem beh (idx + 1 + j2) (rest.getD j2 "")).1 = true := by
          intro j2 hj2
          have := hok (j2 + 1) (by omega)
          simpa [Nat.add_comm, Nat.add_assoc, Nat.add_left_comm] using this
        have hfail' :
            isAgentErrE (runChainItem beh (idx + 1 + j) (rest.getD j "")).1 = true := by
          simpa [Nat.add_comm, Nat.add_assoc, Nat.add_left_comm] using hfail
        have hm' : j < rest.length := by simpa using hm
        rw [processLoop_cons_ok hch]
        by_cases hmod : idx % 10 = 0
        · rw [if_pos (by simp [hmod]), if_pos (hinter idx)]
          obtain ⟨newRes, newFiles, newCalls, e, heq, hagent, hlen, hcall, hfiles⟩ :=
            ih j (idx + 1)
              { st with
                results := st.results ++ [⟨idx, s, ru, he, fin, scorer s fin⟩]
                files := st.files
                  ++ [.intermediate idx (st.results ++ [⟨idx, s, ru, he, fin, scorer s fin⟩])]
                calls := st.calls ++ c }
              hok' hfail' hm'
          refine ⟨⟨idx, s, ru, he, fin, scorer s fin⟩ :: newRes,
            .intermediate idx (st.results ++ [⟨idx, s, ru, he, fin, scorer s fin⟩]) :: newFiles,
            c ++ newCalls, e, ?_, hagent, by simp [hlen], ?_, ?_⟩
          · rw [heq]; simp
          · intro p hp
            rcases List.mem_append.mp hp with hp | hp
            · have := hcalls p hp; omega
            · have := hcall p hp; omega
          · simpa [isIntermediateB] using hfiles
        · rw [if_neg (by simpa using hmod)]
          obtain ⟨newRes, newFiles, newCalls, e, heq, hagent, hlen, hcall, hfiles⟩ :=
            ih j (idx + 1)
              { st with
                results := st.results ++ [⟨idx, s, ru, he, fin, scorer s fin⟩]
                calls := st.calls ++ c }
              hok' hfail' hm'
          refine ⟨⟨idx, s, ru, he, fin, scorer s fin⟩ :: newRes, newFiles,
            c ++ newCalls, e, ?_, hagent, by simp [hlen], ?_, hfiles⟩
          · rw [heq]; simp
          · intro p hp
            rcases List.mem_append.mp hp with hp | hp
            · have := hcalls p hp; omega
            · have := hcall p hp; omega

/-- C1 (amended): if the stage chain exhausts its retries on item `k` of `n`
with `2 ≤ k` (and checkpoint writes succeed), the run stops processing — no
stage of items `k+1..n` is ever invoked —, `run` ends in the agent-error abort
path, and exactly one partial-results file is written, whose `status` metadata
starts with `PARTIAL` (the full value is `"PARTIAL - Pipeline stopped early"`)
and whose metadata carries `sentences_processed = k - 1` and
`sentences_expected = n`, containing exactly the `k - 1` ItemResults completed
before the failure.  (For `k = 1` no results exist and the source writes no
partial file at all — see the counterexample.) -/
theorem C1_abort_saves_partial_results (beh : AgentBehavior)
    (scorer : String → String → ℚ) (interOk : Nat → Bool) (finalOk : Bool)
    (n k : Nat) (sentences : List String)
    (hinter : ∀ i, interOk i = true)
    (hlen : sentences.length = n)
    (hk2 : 2 ≤ k) (hkn : k ≤ n)
    (hok : ∀ j, j < k - 1 → isOkEB (runChainItem beh (1 + j) (sentences.getD j "")).1 = true)
    (hfail : isAgentErrE (runChainItem beh k (sentences.getD (k - 1) "")).1 = true) :
    isAbortedAgentB
        (pipeline_run beh scorer interOk finalOk true n sentences).outcome = true ∧
    (pipeline_run beh scorer interOk finalOk true n sentences).results.length = k - 1 ∧
    ((pipeline_run beh scorer interOk finalOk true n sentences).calls.all
        (fun p => p.1 ≤ k)) = true ∧
    (pipeline_run beh scorer interOk finalOk true n sentences).files.filterMap partialData
      = [(partialStatus, k - 1, n,
          (pipeline_run beh scorer interOk finalOk true n sentences).results)] ∧
    pyStartsWith partialStatus "PARTIAL" = true := by
  have hfail1 : isAgentErrE (runChainItem beh (1 + (k - 1))
      (sentences.getD (k - 1) "")).1 = true := by
    have hk : 1 + (k - 1) = k := by omega
    rw [hk]
    exact hfail
  obtain ⟨newRes, newFiles, newCalls, e, heq, hagent, hlenR, hcall, hfiles⟩ :=
    processLoop_fail_spec beh scorer interOk hinter sentences (k - 1) 1 ⟨[], [], [], none⟩
      hok hfail1 (by omega)
  have hne : newRes ≠ [] := by
    intro hcon
    rw [hcon] at hlenR
    simp at hlenR
    omega
  unfold pipeline_run
  rw [heq]
  simp only []
  cases e with
  | genericExc m => simp [isAgentErrP] at hagent
  | agentTimeout m =>
    simp only [List.nil_append]
    rw [if_neg (by simp [List.isEmpty_iff, hne]), if_pos trivial]
    refine ⟨rfl, by simpa using hlenR, ?_, ?_, by decide⟩
    · rw [List.all_eq_true]
      intro p hp
      simp only [List.nil_append] at hp
      have := hcall p hp
      simp only [decide_eq_true_eq]
      omega
    · rw [List.filterMap_append, partialData_nil_of_all_intermediate hfiles]
      simp [partialData, hlenR]
  | agentMaxRetries m =>
    simp only [List.nil_append]
    rw [if_neg (by simp [List.isEmpty_iff, hne]), if_pos trivial]
    refine ⟨rfl, by simpa using hlenR, ?_, ?_, by decide⟩
    · rw [List.all_eq_true]
      intro p hp
      simp only [List.nil_append] at hp
      have := hcall p hp
      simp only [decide_eq_true_eq]
      omega
    · rw [List.filterMap_append, partialData_nil_of_all_intermediate hfiles]
      simp [partialData, hlenR]

theorem C1_abort_saves_partial_results_witness :
    isAbortedAgentB
        (pipeline_run (failAt 3) zeroScorer allOkSave true true 5 fiveSentences).outcome
      = true ∧
    (pipeline_run (failAt 3) zeroScorer allOkSave true true 5 fiveSentences).results.length
      = 2 ∧
    ((pipeline_run (failAt 3) zeroScorer allOkSave true true 5 fiveSentences).calls.all
        (fun p => p.1 ≤ 3)) = true ∧
    (pipeline_run (failAt 3) zeroScorer allOkSave true true 5
          fiveSentences).files.filterMap partialData
      = [(partialStatus, 2, 5,
          (pipeline_run (failAt 3) zeroScorer allOkSave true true 5
            fiveSentences).results)] ∧
    pyStartsWith partialStatus "PARTIAL" = true :=
  C1_abort_saves_partial_results (failAt 3) zeroScorer allOkSave true 5 3 fiveSentences
    (fun _ => rfl) rfl (by decide) (by decide) (by decide) (by decide)

/-- C1, counterexample to the claim as stated: when the chain exhausts retries
on item `k = 1` of `n = 5`, the run aborts on the agent error but **no**
partial-results file (nor any other file) is written — `run` only calls
`_save_partial_results` when `self.results` is non-empty — contradicting the
claim that a partial file tagged PARTIAL with `sentences_processed = k - 1 = 0`
is written for every failing item `k`. -/
theorem C1_no_partial_file_on_first_item_failure :
    isAbortedAgentB
        (pipeline_run (failAt 1) zeroScorer allOkSave true true 5 fiveSentences).outcome
      = true ∧
    (pipeline_run (failAt 1) zeroScorer allOkSave true true 5 fiveSentences).files = [] := by
  constructor
  · rfl
  · rfl

theorem all_intermediate_no_final {fs : List SavedFile}
    (h : fs.all isIntermediateB = true) : fs.filter isFinalB = [] := by
  induction fs with
  | nil => rfl
  | cons f rest ih =>
    rw [List.all_cons, Bool.and_eq_true] at h
    cases f with
    | intermediate i s => simpa [List.filter_cons, isFinalB] using ih h.2
    | partialResults a b c d => simp [isIntermediateB] at h
    | finalResults a b => simp [isIntermediateB] at h

theorem processLoop_allOk_spec (beh : AgentBehavior) (scorer : String → String → ℚ)
    (interOk : Nat → Bool)
    (hok : ∀ idx s, isOkEB (runChainItem beh idx s).1 = true)
    (hinter : ∀ i, interOk i = true) :
    ∀ (sents : List String) (idx : Nat) (st : ProcState),
      (processLoop beh scorer interOk sents idx st).err = st.err ∧
      (processLoop beh scorer interOk sents idx st).results.length
        = st.results.length + sents.length ∧
      (processLoop beh scorer interOk sents idx st).files.filterMap interIndex
        = st.files.filterMap interIndex
          ++ (List.range' idx sents.length).filter (fun i => i % 10 == 0) ∧
      (st.files.all isIntermediateB = true →
        (processLoop beh scorer interOk sents idx st).files.all isIntermediateB = true) := by
  intro sents
  induction sents with
  | nil =>
    intro idx st
    exact ⟨rfl, by simp [processLoop], by simp [processLoop], fun h => h⟩
  | cons s rest ih =>
    intro idx st
    rcases hch : runChainItem beh idx s with ⟨exc, c⟩
    cases exc with
    | error e =>
      have := hok idx s
      rw [hch] at this
      simp [isOkEB] at this
    | ok t =>
      obtain ⟨ru, he, fin⟩ := t
      rw [processLoop_cons_ok hch]
      by_cases hmod : idx % 10 = 0
      · rw [if_pos (by simp [hmod]), if_pos (hinter idx)]
        obtain ⟨ihErr, ihLen, ihInter, ihAll⟩ := ih (idx + 1)
          { st with
            results := st.results ++ [⟨idx, s, ru, he, fin, scorer s fin⟩]
            files := st.files
              ++ [.intermediate idx (st.results ++ [⟨idx, s, ru, he, fin, scorer s fin⟩])]
            calls := st.calls ++ c }
        refine ⟨ihErr, ?_, ?_, ?_⟩
        · rw [ihLen]; simp; omega
        · rw [ihInter]
          simp only [List.length_cons, List.range'_succ, List.filter_cons]
          rw [if_pos (by simp [hmod])]
          simp [List.filterMap_append, interIndex]
        · intro hAll
          apply ihAll
          simp only [List.all_append, hAll, Bool.true_and]
          simp [isIntermediateB]
      · rw [if_neg (by simpa using hmod)]
        obtain ⟨ihErr, ihLen, ihInter, ihAll⟩ := ih (idx + 1)
          { st with
            results := st.results ++ [⟨idx, s, ru, he, fin, scorer s fin⟩]
            calls := st.calls ++ c }
        refine ⟨ihErr, ?_, ?_, ?_⟩
        · rw [ihLen]; simp; omega
        · rw [ihInter]
          simp only [List.length_cons, List.range'_succ, List.filter_cons]
          rw [if_neg (by simpa using hmod)]
        · intro hAll
          exact ihAll hAll

/-- C4 (amended): when `config.SAVE_INTERMEDIATE` is on, a non-fatal
checkpoint of all results so far is written after every 10th successfully
completed item — the interval is the hard-coded literal `10` in
`_process_sentences` (`idx % 10 == 0`); no `checkpoint_interval` configuration
option exists — and a fully successful run of `n ≥ 1` items additionally
writes exactly one final complete result file.  In particular a successful
5-item run produces **zero** intermediate checkpoint files (see the
counterexample), not two. -/
theorem C4_checkpoint_interval_hardcoded_10 (beh : AgentBehavior)
    (scorer : String → String → ℚ) (interOk : Nat → Bool) (n : Nat)
    (sentences : List String)
    (hok : ∀ idx s, isOkEB (runChainItem beh idx s).1 = true)
    (hinter : ∀ i, interOk i = true)
    (hlen : sentences.length = n) (hn : 1 ≤ n) :
    (pipeline_run beh scorer interOk true true n sentences).outcome = .completed ∧
    (pipeline_run beh scorer interOk true true n sentences).files.filterMap interIndex
      = (List.range' 1 n).filter (fun i => i % 10 == 0) ∧
    ((pipeline_run beh scorer interOk true true n sentences).files.filter
        isFinalB).length = 1 := by
  obtain ⟨hErr, hLen, hInter, hAll⟩ :=
    processLoop_allOk_spec beh scorer interOk hok hinter sentences 1 ⟨[], [], [], none⟩
  have hAllI := hAll rfl
  have hne : (processLoop beh scorer interOk sentences 1 ⟨[], [], [], none⟩).results ≠ [] := by
    intro hcon
    rw [hcon] at hLen
    simp at hLen
    omega
  unfold pipeline_run
  simp only [hErr]
  rw [if_neg (by simp [List.isEmpty_iff, hne]), if_pos trivial]
  refine ⟨rfl, ?_, ?_⟩
  · simp only [List.filterMap_append]
    rw [hInter]
    simp [interIndex, hlen]
  · simp only [List.filter_append]
    rw [all_intermediate_no_final hAllI]
    simp [isFinalB]

theorem C4_checkpoint_interval_hardcoded_10_witness :
    (pipeline_run successBeh zeroScorer allOkSave true true 12 twelveSentences).outcome
      = .completed ∧
    (pipeline_run successBeh zeroScorer allOkSave true true 12
        twelveSentences).files.filterMap interIndex
      = (List.range' 1 12).filter (fun i => i % 10 == 0) ∧
    ((pipeline_run successBeh zeroScorer allOkSave true true 12
        twelveSentences).files.filter isFinalB).length = 1 :=
  C4_checkpoint_interval_hardcoded_10 successBeh zeroScorer allOkSave 12 twelveSentences
    (fun _ _ => rfl) (fun _ => rfl) rfl (by decide)

/-- C4, counterexample to the claim as stated: a fully successful run of 5
items (the spec scenario, with every write succeeding) produces zero
intermediate checkpoint files, not two — the interval cannot be configured to
2 because `_process_sentences` hard-codes `idx % 10 == 0` and `config.py`
offers only the on/off flag `SAVE_INTERMEDIATE`. -/
theorem C4_five_items_zero_checkpoints :
    (pipeline_run successBeh zeroScorer allOkSave true true 5 fiveSentences).outcome
      = .completed ∧
    ((pipeline_run successBeh zeroScorer allOkSave true true 5
        fiveSentences).files.filterMap interIndex).length = 0 ∧
    (((pipeline_run successBeh zeroScorer allOkSave true true 5
        fiveSentences).files.filterMap interIndex).length == 2) = false := by
  exact ⟨rfl, rfl, rfl⟩

theorem processLoop_interFail_spec (beh : AgentBehavior) (scorer : String → String → ℚ)
    (interOk : Nat → Bool) (c : Nat)
    (hok : ∀ idx s, isOkEB (runChainItem beh idx s).1 = true)
    (hc0 : c % 10 = 0) (hcF : interOk c = false)
    (hinter : ∀ i, i < c → interOk i = true) :
    ∀ (sents : List String) (idx : Nat) (st : ProcState),
      idx ≤ c → c < idx + sents.length →
      ∃ newRes newFiles newCalls,
        processLoop beh scorer interOk sents idx st
          = ⟨st.results ++ newRes, st.files ++ newFiles, st.calls ++ newCalls,
             some (.genericExc intermediateSaveFailMsg)⟩ ∧
        newRes.length = c + 1 - idx ∧
        (∀ p ∈ newCalls, p.1 ≤ c) ∧
        newFiles.all isIntermediateB = true := by
  intro sents
  induction sents with
  | nil => intro idx st h1 h2; simp at h2; omega
  | cons s rest ih =>
    intro idx st hle hlt
    rcases hch : runChainItem beh idx s with ⟨exc, cl⟩
    cases exc with
    | error e =>
      have := hok idx s
      rw [hch] at this
      simp [isOkEB] at this
    | ok t =>
      obtain ⟨ru, he, fin⟩ := t
      have hcalls : ∀ p ∈ cl, p.1 = idx := by
        intro p hp
        exact runChainItem_calls beh idx s p (by rw [hch]; exact hp)
      rw [processLoop_cons_ok hch]
      by_cases hidx : idx = c
      · subst hidx
        rw [if_pos (by simp [hc0]), if_neg (by simp [hcF])]
        refine ⟨[⟨idx, s, ru, he, fin, scorer s fin⟩], [], cl, by simp, ?_, ?_, rfl⟩
        · simp only [List.length_singleton]
          omega
        · intro p hp
          have := hcalls p hp
          omega
      · have hltc : idx < c := lt_of_le_of_ne hle hidx
        by_cases hmod : idx % 10 = 0
        · rw [if_pos (by simp [hmod]), if_pos (hinter idx hltc)]
          obtain ⟨newRes, newFiles, newCalls, heq, hlenR, hcall, hfiles⟩ :=
            ih (idx + 1)
              { st with
                results := st.results ++ [⟨idx, s, ru, he, fin, scorer s fin⟩]
                files := st.files
                  ++ [.intermediate idx (st.results ++ [⟨idx, s, ru, he, fin, scorer s fin⟩])]
                calls := st.calls ++ cl }
              (by omega) (by simp at hlt ⊢; omega)
          refine ⟨⟨idx, s, ru, he, fin, scorer s fin⟩ :: newRes,
            .intermediate idx (st.results ++ [⟨idx, s, ru, he, fin, scorer s fin⟩]) :: newFiles,
            cl ++ newCalls, ?_, by simp [hlenR]; omega, ?_, ?_⟩
          · rw [heq]; simp
          · intro p hp
            rcases List.mem_append.mp hp with hp | hp
            · have := hcalls p hp; omega
            · exact hcall p hp
          · simpa [isIntermediateB] using hfiles
        · rw [if_neg (by simpa using hmod)]
          obtain ⟨newRes, newFiles, newCalls, heq, hlenR, hcall, hfiles⟩ :=
            ih (idx + 1)
              { st with
                results := st.results ++ [⟨idx, s, ru, he, fin, scorer s fin⟩]
                calls := st.calls ++ cl }
              (by omega) (by simp at hlt ⊢; omega)
          refine ⟨⟨idx, s, ru, he, fin, scorer s fin⟩ :: newRes, newFiles,
            cl ++ newCalls, ?_, by simp [hlenR]; omega, ?_, hfiles⟩
          · rw [heq]; simp
          · intro p hp
            rcases List.mem_append.mp hp with hp | hp
            · have := hcalls p hp; omega
            · exact hcall p hp

/-- C5 (amended): persistence failures are fatal in both places.  (a) A
failure while writing an intermediate checkpoint (item `c`, `c % 10 = 0`)
aborts the run: the generic exception is not caught by the agent-error
handler, the remaining items are never invoked, only the `c` results completed
so far exist, and no partial-results file is written.  (b) A persistence
failure on the final save after a fully successful run is likewise fatal and
is surfaced as a generic abort, distinct from the agent-error (processing
failure) abort path.  The claim's statement that an intermediate checkpoint
failure is non-fatal and processing continues is false — see the
counterexample. -/
theorem C5_checkpoint_write_failure_is_fatal :
    (∀ (beh : AgentBehavior) (scorer : String → String → ℚ) (interOk : Nat → Bool)
        (finalOk : Bool) (n c : Nat) (sentences : List String),
      (∀ idx s, isOkEB (runChainItem beh idx s).1 = true) →
      c % 10 = 0 → 1 ≤ c → c ≤ n →
      interOk c = false → (∀ i, i < c → interOk i = true) →
      sentences.length = n →
      (pipeline_run beh scorer interOk finalOk true n sentences).outcome
        = .abortedOther intermediateSaveFailMsg ∧
      (pipeline_run beh scorer interOk finalOk true n sentences).results.length = c ∧
      ((pipeline_run beh scorer interOk finalOk true n sentences).calls.all
          (fun p => p.1 ≤ c)) = true ∧
      (pipeline_run beh scorer interOk finalOk true n sentences).files.filterMap
          partialData = []) ∧
    (∀ (beh : AgentBehavior) (scorer : String → String → ℚ) (interOk : Nat → Bool)
        (n : Nat) (sentences : List String),
      (∀ idx s, isOkEB (runChainItem beh idx s).1 = true) →
      (∀ i, interOk i = true) →
      sentences.length = n → 1 ≤ n →
      (pipeline_run beh scorer interOk false true n sentences).outcome
        = .abortedOther finalSaveFailMsg ∧
      isAbortedAgentB
        (pipeline_run beh scorer interOk false true n sentences).outcome = false) := by
  constructor
  · intro beh scorer interOk finalOk n c sentences hok hc0 hc1 hcn hcF hinter hlen
    obtain ⟨newRes, newFiles, newCalls, heq, hlenR, hcall, hfiles⟩ :=
      processLoop_interFail_spec beh scorer interOk c hok hc0 hcF hinter sentences 1
        ⟨[], [], [], none⟩ (by omega) (by omega)
    unfold pipeline_run
    rw [heq]
    simp only [List.nil_append]
    refine ⟨by trivial, by omega, ?_, ?_⟩
    · rw [List.all_eq_true]
      intro p hp
      have := hcall p hp
      simp only [decide_eq_true_eq]
      omega
    · exact partialData_nil_of_all_intermediate hfiles
  · intro beh scorer interOk n sentences hok hinter hlen hn
    obtain ⟨hErr, hLen, _, _⟩ :=
      processLoop_allOk_spec beh scorer interOk hok hinter sentences 1 ⟨[], [], [], none⟩
    have hne : (processLoop beh scorer interOk sentences 1
        ⟨[], [], [], none⟩).results ≠ [] := by
      intro hcon
      rw [hcon] at hLen
      simp at hLen
      omega
    unfold pipeline_run
    simp only [hErr]
    rw [if_neg (by simp [List.isEmpty_iff, hne])]
    simp [isAbortedAgentB]

theorem C5_checkpoint_write_failure_is_fatal_witness :
    ((pipeline_run successBeh zeroScorer (failSaveAt 10) true true 12
          twelveSentences).outcome = .abortedOther intermediateSaveFailMsg ∧
      (pipeline_run successBeh zeroScorer (failSaveAt 10) true true 12
          twelveSentences).results.length = 10 ∧
      ((pipeline_run successBeh zeroScorer (failSaveAt 10) true true 12
          twelveSentences).calls.all (fun p => p.1 ≤ 10)) = true ∧
      (pipeline_run successBeh zeroScorer (failSaveAt 10) true true 12
          twelveSentences).files.filterMap partialData = []) ∧
    ((pipeline_run successBeh zeroScorer allOkSave false true 5
          fiveSentences).outcome = .abortedOther finalSaveFailMsg ∧
      isAbortedAgentB (pipeline_run successBeh zeroScorer allOkSave false true 5
          fiveSentences).outcome = false) :=
  ⟨C5_checkpoint_write_failure_is_fatal.1 successBeh zeroScorer (failSaveAt 10) true 12 10
      twelveSentences (fun _ _ => rfl) (by decide) (by decide) (by decide) rfl
      (by decide) rfl,
    C5_checkpoint_write_failure_is_fatal.2 successBeh zeroScorer allOkSave 5 fiveSentences
      (fun _ _ => rfl) (fun _ => rfl) rfl (by decide)⟩

/-- C5, counterexample to the claim as stated: 12 items, every chain succeeds,
and the intermediate checkpoint write after item 10 fails — the run aborts
with the generic error instead of continuing: only 10 results exist, items 11
and 12 are never invoked, and no file at all records the results. -/
theorem C5_processing_does_not_continue :
    (pipeline_run successBeh zeroScorer (failSaveAt 10) true true 12
        twelveSentences).outcome = .abortedOther intermediateSaveFailMsg ∧
    (pipeline_run successBeh zeroScorer (failSaveAt 10) true true 12
        twelveSentences).results.length = 10 ∧
    ((pipeline_run successBeh zeroScorer (failSaveAt 10) true true 12
        twelveSentences).calls.all (fun p => p.1 ≤ 10)) = true ∧
    (pipeline_run successBeh zeroScorer (failSaveAt 10) true true 12
        twelveSentences).files = [] := by
  exact ⟨rfl, rfl, by decide, rfl⟩

theorem parseNumbered_bounds (content : String) (num minw maxw : Nat) :
    ∀ s ∈ parseNumbered content num minw maxw,
      minw ≤ word_count s ∧ word_count s ≤ maxw := by
  have key : ∀ (lines : List String) (acc : List String),
      (∀ s ∈ acc, minw ≤ word_count s ∧ word_count s ≤ maxw) →
      ∀ s ∈ lines.foldl
        (fun acc rawLine =>
          let line := pyStrip rawLine
          if !line.isEmpty
              && (List.range' 1 num).any
                  (fun i => pyStartsWith line (toString i ++ ".")) then
            let sentence := pyStrip (pyAfterFirstDot line)
            let wc := word_count sentence
            if decide (minw ≤ wc) && decide (wc ≤ maxw) then acc ++ [sentence]
            else acc
          else acc) acc,
        minw ≤ word_count s ∧ word_count s ≤ maxw := by
    intro lines
    induction lines with
    | nil =>
      intro acc hacc
      simpa using hacc
    | cons l rest ih =>
      intro acc hacc
      rw [List.foldl_cons]
      apply ih
      intro s hs
      simp only at hs
      split at hs
      · split at hs
        · rename_i hcond
          rcases List.mem_append.mp hs with h | h
          · exact hacc s h
          · rcases List.mem_singleton.mp h with rfl
            rw [Bool.and_eq_true, decide_eq_true_eq, decide_eq_true_eq] at hcond
            exact hcond
        · exact hacc s hs
      · exact hacc s hs
  intro s hs
  unfold parseNumbered at hs
  exact key _ [] (by simp) s hs

theorem generate_additional_bounds (addl : Option String) (count minw maxw : Nat) :
    ∀ s ∈ generate_additional_sentences addl count minw maxw,
      minw ≤ word_count s ∧ word_count s ≤ maxw := by
  intro s hs
  cases addl with
  | none => simp [generate_additional_sentences] at hs
  | some content =>
    simp only [generate_additional_sentences] at hs
    obtain ⟨-, hcond⟩ := List.mem_filter.mp hs
    rw [Bool.and_eq_true, decide_eq_true_eq, decide_eq_true_eq] at hcond
    exact hcond

/-- C7 (amended): on the API-generation paths of `generate_sentences` (main
parse of the numbered list, and the top-up from
`_generate_additional_sentences`) every returned string has a word count `w`
with `min_words ≤ w ≤ max_words`, because both paths filter by word count.
The template-based fallback used when API generation fails performs **no**
word-count validation: its sentences have fixed shapes (11–14 words) that
ignore the bounds, so the claim fails on that path — see the
counterexample. -/
theorem C7_api_generated_sentences_respect_bounds (raw : String) (addl : Option String)
    (tp : Nat → Nat) (wp : Nat → String → Nat) (num minw maxw : Nat) :
    (generate_sentences (some raw) addl tp wp num minw maxw).all
      (fun s => decide (minw ≤ word_count s) && decide (word_count s ≤ maxw)) = true := by
  rw [List.all_eq_true]
  intro s hs
  simp only [generate_sentences] at hs
  have hs3 := List.take_subset _ _ hs
  rw [Bool.and_eq_true, decide_eq_true_eq, decide_eq_true_eq]
  by_cases hlt : (parseNumbered (pyStrip raw) num minw maxw).length < num
  · rw [if_pos hlt] at hs3
    rcases List.mem_append.mp hs3 with h | h
    · exact parseNumbered_bounds _ _ _ _ s h
    · exact generate_additional_bounds _ _ _ _ s h
  · rw [if_neg hlt] at hs3
    exact parseNumbered_bounds _ _ _ _ s hs3

/-- C7, counterexample to the claim as stated: when API generation fails and
`generate_sentences(1, min_words = 12, max_words = 20)` falls back to the
template path, the returned sentence
(`"The beautiful mountain flows across the valley while the sun continues."`
under a fixed randomness oracle) has only 11 words, violating
`min_words ≤ w`. -/
theorem C7_template_fallback_ignores_bounds :
    (generate_sentences none none (fun _ => 0) (fun _ _ => 0) 1 12 20).all
      (fun s => decide (12 ≤ word_count s) && decide (word_count s ≤ 20)) = false ∧
    word_count ((generate_sentences none none (fun _ => 0) (fun _ _ => 0) 1 12 20).getD 0 "")
      = 11 ∧
    (generate_sentences none none (fun _ => 0) (fun _ _ => 0) 1 12 20).length = 1 := by
  exact ⟨rfl, rfl, rfl⟩
